import Mathlib

/-!
Verification development for the NostrFácil Telegram directory bot
(`src/bot.py`).  The definitions below are a shallow embedding of the
renderer (`build_directory_messages`, `format_profile_line`,
`get_display_name`), the pin reconciler (`update_pinned_directory`),
and the pinned-message ledger (`save_pinned_message`,
`get_current_pinned`).  Effectful collaborators (the Telegram channel
transport and the SQLite tables) are modelled by explicit state that is
threaded through the functions.
-/

namespace NostrBot

/-- Constant `MAX_MSG_LENGTH = 4000` from the configuration block of `bot.py`. -/
def MAX_MSG_LENGTH : Nat := 4000

/-- Constant `NJUMP_BASE` from the configuration block of `bot.py`. -/
def NJUMP_BASE : String := "https://njump.me/"

/-- A row of the `profiles` table.  Nullable SQLite text columns are
`Option String`; `web_consent` is stored as an integer flag, modelled
as `Bool`. -/
structure Profile where
  npub : String
  telegram_user_id : Int
  telegram_username : Option String
  telegram_name : Option String
  added_at : String
  web_consent : Bool
  custom_name : Option String
deriving DecidableEq, Repr

/-- Python truthiness of an optional string: `None` and the empty
string are falsy, every other string is truthy.  This is the test
performed by `if profile.get(...)` in `bot.py`. -/
def truthy : Option String → Bool
  | none => false
  | some s => s ≠ ""

/-- Python `x or y` on an optional string and a default, as in the
source expression reading `telegram_name` with default `Anónimo`. -/
def orDefault (o : Option String) (d : String) : String :=
  if truthy o then o.getD "" else d

/-- Function `get_display_name` from `bot.py`: custom_name >
@telegram_username > telegram_name > "Anónimo", each test being Python
truthiness. -/
def get_display_name (p : Profile) : String :=
  if truthy p.custom_name then p.custom_name.getD ""
  else if truthy p.telegram_username then "@" ++ p.telegram_username.getD ""
  else orDefault p.telegram_name "Anónimo"

/-- Function `format_profile_line` from `bot.py`: the numbered line
made of the index, the display name, and an HTML anchor whose target is
`NJUMP_BASE` followed by the npub and whose text is the npub truncated
to 16 characters plus an ellipsis. -/
def format_profile_line (idx : Nat) (p : Profile) : String :=
  let display := get_display_name p
  let npub_short := p.npub.take 16 ++ "..."
  toString idx ++ ". " ++ display ++ " → <a href=\x27" ++ NJUMP_BASE ++ p.npub
    ++ "\x27>" ++ npub_short ++ "</a>"

/-- Python `join` of lines with a newline separator. -/
def joinLines : List String → String
  | [] => ""
  | [l] => l
  | l :: ls => l ++ "\n" ++ joinLines ls

/-- The first-chunk header literal of `build_directory_messages`. -/
def HEADER : String := "🟣 <b>Directorio Nostr del grupo</b>\n\n"

/-- The continuation-chunk header literal of `build_directory_messages`. -/
def CONT_HEADER : String := "🟣 <b>Directorio Nostr (continuación)</b>\n\n"

/-- The continuation marker (`chain_note`) of `build_directory_messages`. -/
def CHAIN_NOTE : String := "\n\n⬇️ <i>Continúa en el siguiente mensaje...</i>"

/-- Formatted footer template of `build_directory_messages`, carrying
the total count and the date. -/
def footer_str (count : Nat) (date_str : String) : String :=
  "\n\n📊 " ++ toString count ++ " perfiles | Actualizado: " ++ date_str ++ " UTC"

/-- The placeholder message returned for an empty profile list.  The
date string is the internal `datetime.now(...)` reading, threaded as an
explicit argument. -/
def empty_directory_message (date_str : String) : String :=
  "🟣 <b>Directorio Nostr del grupo</b>\n\n"
    ++ "<i>Aún no hay perfiles registrados.</i>\n"
    ++ "Envía tu <code>npub1...</code> para aparecer aquí.\n\n"
    ++ "📊 0 perfiles | Actualizado: " ++ date_str ++ " UTC"

/-- The mutable locals of the packing loop of `build_directory_messages`:
`messages`, `current_lines`, `current_length`, `header`. -/
structure BuildState where
  messages : List String
  current_lines : List String
  current_length : Nat
  header : String
deriving DecidableEq, Repr

/-- One iteration of the packing loop of `build_directory_messages`
(`for i, profile in enumerate(profiles, 1)`): seal the current chunk
with the continuation marker when the prospective line together with
the footer and the marker would overflow `MAX_MSG_LENGTH`, then append
the line.  Note that on a seal the source resets `current_length` to
the length of the header variable *before* reassigning it to the
continuation header. -/
def build_step (total : Nat) (date_str : String) (st : BuildState)
    (idx : Nat) (p : Profile) : BuildState :=
  let line := format_profile_line idx p
  let line_length := line.length + 1
  let footer := footer_str total date_str
  if st.current_length + line_length + footer.length + CHAIN_NOTE.length
      > MAX_MSG_LENGTH then
    { messages := st.messages ++ [st.header ++ joinLines st.current_lines ++ CHAIN_NOTE]
      current_lines := [line]
      current_length := st.header.length + line_length
      header := CONT_HEADER }
  else
    { st with
      current_lines := st.current_lines ++ [line]
      current_length := st.current_length + line_length }

/-- The packing loop of `build_directory_messages`, with `idx` the
running 1-based `enumerate` counter. -/
def build_loop (total : Nat) (date_str : String) :
    BuildState → Nat → List Profile → BuildState
  | st, _, [] => st
  | st, idx, p :: ps =>
      build_loop total date_str (build_step total date_str st idx p) (idx + 1) ps

/-- Function `build_directory_messages` from `bot.py`.  The `chat_id` argument
is kept to mirror the source signature (the source never reads it);
`date_str` is the value of the internal
`datetime.now(timezone.utc).strftime("%d/%m/%Y %H:%M")` call, threaded
as an explicit argument. -/
def build_directory_messages (profiles : List Profile) (chat_id : Int)
    (date_str : String) : List String :=
  if profiles.isEmpty then
    [empty_directory_message date_str]
  else
    let st := build_loop profiles.length date_str
      ⟨[], [], HEADER.length, HEADER⟩ 1 profiles
    st.messages ++ [st.header ++ joinLines st.current_lines
      ++ footer_str profiles.length date_str]

/-! ### Structured view of the packing loop

`ChunksState` is `BuildState` with the sealed chunks kept as
`(header, numbered lines)` pairs instead of flattened strings;
`absState` renders them back, and the loop below makes exactly the same
decisions as `build_loop` (it reads only `current_length`), so
`build_loop` factors through it.  This is the bridge used to state
which numbered lines each produced chunk carries. -/

/-- Packing-loop state with sealed chunks kept structured. -/
structure ChunksState where
  sealed : List (String × List String)
  current_lines : List String
  current_length : Nat
  header : String
deriving DecidableEq, Repr

/-- Render one sealed chunk: its header, its numbered lines joined with
newlines, and the continuation marker. -/
def render_sealed (hl : String × List String) : String :=
  hl.1 ++ joinLines hl.2 ++ CHAIN_NOTE

/-- Step function `build_step` on the structured state. -/
def chunks_step (total : Nat) (date_str : String) (st : ChunksState)
    (idx : Nat) (p : Profile) : ChunksState :=
  let line := format_profile_line idx p
  let line_length := line.length + 1
  let footer := footer_str total date_str
  if st.current_length + line_length + footer.length + CHAIN_NOTE.length
      > MAX_MSG_LENGTH then
    { sealed := st.sealed ++ [(st.header, st.current_lines)]
      current_lines := [line]
      current_length := st.header.length + line_length
      header := CONT_HEADER }
  else
    { st with
      current_lines := st.current_lines ++ [line]
      current_length := st.current_length + line_length }

/-- Loop `build_loop` on the structured state. -/
def chunks_loop (total : Nat) (date_str : String) :
    ChunksState → Nat → List Profile → ChunksState
  | st, _, [] => st
  | st, idx, p :: ps =>
      chunks_loop total date_str (chunks_step total date_str st idx p) (idx + 1) ps

/-- Flattening of a structured state back to `BuildState`. -/
def absState (st : ChunksState) : BuildState :=
  ⟨st.sealed.map render_sealed, st.current_lines, st.current_length, st.header⟩

/-- All numbered lines carried by a structured state, sealed chunks
first, in order. -/
def chunkLines (st : ChunksState) : List String :=
  (st.sealed.map Prod.snd).flatten ++ st.current_lines

/-- The structured state of the packing loop run on a profile list from
the initial state. -/
def directory_chunks (profiles : List Profile) (date_str : String) : ChunksState :=
  chunks_loop profiles.length date_str ⟨[], [], HEADER.length, HEADER⟩ 1 profiles

/-- Spec-side definition for C6: the numbered lines of a directory, one
per profile, numbered consecutively from 1 over the whole list as by
`enumerate(profiles, 1)`. -/
def numbered_lines (profiles : List Profile) : List String :=
  (profiles.enumFrom 1).map fun ip => format_profile_line ip.1 ip.2

/-- The headroom a numbered line needs so that the packing check
protects it: continuation header, the line and its newline, the final
footer and the continuation marker all in one chunk.  The check at the
top of the loop body only guards *adding* a line to a chunk; a line
violating this bound is placed into a fresh chunk unchecked. -/
def LineFits (total : Nat) (date_str : String) (idx : Nat) (p : Profile) : Prop :=
  CONT_HEADER.length + ((format_profile_line idx p).length + 1)
    + (footer_str total date_str).length + CHAIN_NOTE.length ≤ MAX_MSG_LENGTH

instance (total : Nat) (date_str : String) (idx : Nat) (p : Profile) :
    Decidable (LineFits total date_str idx p) :=
  inferInstanceAs (Decidable (_ ≤ _))

/-- Invariant of the packing loop: all sealed messages are within the
bound, the header is one of the two header literals, the tracked
`current_length` leaves room for the worst chunk ending, and the
tracked length undercounts the real accumulated content by at most the
5 characters the continuation header is longer than the primary one
(the source resets `current_length` with the pre-reassignment header). -/
def GoodState (total : Nat) (date_str : String) (st : BuildState) : Prop :=
  (∀ m ∈ st.messages, m.length ≤ MAX_MSG_LENGTH)
  ∧ (st.header = HEADER ∨ st.header = CONT_HEADER)
  ∧ st.current_length + (footer_str total date_str).length + CHAIN_NOTE.length
      ≤ MAX_MSG_LENGTH
  ∧ st.header.length + (st.current_lines.map String.length).sum
      + st.current_lines.length ≤ st.current_length + 5

/-! ## Pinned-message ledger (`pinned_messages` table) -/

/-- A row of the `pinned_messages` table. -/
structure PinnedEntry where
  id : Nat
  chat_id : Int
  message_id : Nat
  profile_count : Nat
  is_current : Bool
  created_at : String
deriving DecidableEq, Repr

/-- Function `save_pinned_message` from `bot.py`: set `is_current = 0` on every
row of this chat, then insert a fresh current row.  `nid` is the
AUTOINCREMENT id assigned to the inserted row and `now` the
`datetime.now(...)` reading. -/
def save_pinned_message (chat : Int) (mid : Nat) (pcount : Nat)
    (now : String) (nid : Nat) (ledger : List PinnedEntry) : List PinnedEntry :=
  (ledger.map fun e =>
    if e.chat_id = chat then { e with is_current := false } else e)
  ++ [⟨nid, chat, mid, pcount, true, now⟩]

/-- Function `get_current_pinned` from `bot.py`:
`SELECT * FROM pinned_messages WHERE chat_id = ? AND is_current = 1`
with `fetchone`, i.e. the first matching row in insertion order. -/
def get_current_pinned (chat : Int) (ledger : List PinnedEntry) :
    Option PinnedEntry :=
  ledger.find? fun e => e.chat_id = chat && e.is_current

/-! ## Channel transport model

The Telegram calls used by `update_pinned_directory` are
`edit_message_text`, `send_message` and `pin_chat_message`.  They are
modelled by a channel state (message id ↦ current text) plus two
failure-injection flags for the `BadRequest` exceptions the transport
may raise: `editFail` makes an edit fail for a transport reason, and
`pinFail` makes the pin call fail.  Telegram reports editing a message
to its existing text as the `BadRequest` "message is not modified". -/

/-- Outcome of `edit_message_text`: success, the "message is not
modified" `BadRequest`, or any other `BadRequest`. -/
inductive EditOutcome
  | success
  | notModified
  | otherError
deriving DecidableEq, Repr

/-- The channel transport state and failure injection. -/
structure Transport where
  channel : Nat → Option String
  editFail : Bool
  pinFail : Bool

/-- Outcome of editing message `mid` to `text`: an injected transport
failure or a missing message raises a generic `BadRequest`; editing to
the identical text raises "message is not modified"; otherwise the
edit succeeds. -/
def edit_outcome (tr : Transport) (mid : Nat) (text : String) : EditOutcome :=
  if tr.editFail then .otherError
  else match tr.channel mid with
    | none => .otherError
    | some t => if t = text then .notModified else .success

/-- Channel after a message send or a successful edit of `mid`. -/
def setMsg (ch : Nat → Option String) (mid : Nat) (text : String) :
    Nat → Option String :=
  fun m => if m = mid then some text else ch m

/-- Channel after an edit attempt: updated on success, unchanged when
the transport raised (`notModified` leaves the stored text equal to
`text` anyway). -/
def edit_apply (tr : Transport) (mid : Nat) (text : String) :
    Nat → Option String :=
  match edit_outcome tr mid text with
  | .success => setMsg tr.channel mid text
  | _ => tr.channel

/-- Result of one `update_pinned_directory` call: the ledger and
channel after the call, the next fresh message id / ledger row id, and
the traces of the sends, pin attempts and edit attempts of this call. -/
structure ReconcileResult where
  ledger : List PinnedEntry
  channel : Nat → Option String
  nextMid : Nat
  nextLid : Nat
  sent : List (Nat × String)
  pinned : List Nat
  edited : List (Nat × String)

/-- The send loop: each text becomes a fresh message with the next
fresh id, in order; returns the new channel, the next fresh id and the
list of sent `(message_id, text)` pairs in send order. -/
def send_messages (texts : List String) (ch : Nat → Option String)
    (nextMid : Nat) : (Nat → Option String) × Nat × List (Nat × String) :=
  match texts with
  | [] => (ch, nextMid, [])
  | t :: ts =>
    let rest := send_messages ts (setMsg ch nextMid t) (nextMid + 1)
    (rest.1, rest.2.1, (nextMid, t) :: rest.2.2)

/-- Lines 331–386 of `bot.py`, the part of `update_pinned_directory`
after the single-chunk edit attempt: the best-effort edit of the
current message to chunk 0 when there is more than one chunk
(`except BadRequest: pass`), the send loop that skips index 0 when a
current entry exists, then pin-and-record of the last sent message
(`save_pinned_message` runs only when the pin call did not raise), and
the `elif not current_pinned` fallback that sends and pins
`messages_text[0]`.  `edited0` carries the edit attempt already made by
the single-chunk branch.  The source would raise `IndexError` in the
fallback branch on an empty chunk list (`build_directory_messages`
never returns one); the model sends the empty string there. -/
def reconcile_rest (msgs : List String) (chat : Int) (pcount : Nat)
    (now : String) (tr : Transport) (ledger : List PinnedEntry)
    (nextMid nextLid : Nat) (edited0 : List (Nat × String))
    (current : Option PinnedEntry) : ReconcileResult :=
  let bestEffort :
      (Nat → Option String) × List (Nat × String) :=
    match current with
    | some cp =>
      if msgs.length > 1 then
        (edit_apply tr cp.message_id (msgs.headD ""),
         edited0 ++ [(cp.message_id, msgs.headD "")])
      else (tr.channel, edited0)
    | none => (tr.channel, edited0)
  let toSend := match current with
    | some _ => msgs.drop 1
    | none => msgs
  let sendRes := send_messages toSend bestEffort.1 nextMid
  match sendRes.2.2.getLast? with
  | some last =>
    if tr.pinFail then
      { ledger := ledger, channel := sendRes.1, nextMid := sendRes.2.1
        nextLid := nextLid, sent := sendRes.2.2, pinned := [last.1]
        edited := bestEffort.2 }
    else
      { ledger := save_pinned_message chat last.1 pcount now nextLid ledger
        channel := sendRes.1, nextMid := sendRes.2.1, nextLid := nextLid + 1
        sent := sendRes.2.2, pinned := [last.1], edited := bestEffort.2 }
  | none =>
    match current with
    | some _ =>
      { ledger := ledger, channel := sendRes.1, nextMid := sendRes.2.1
        nextLid := nextLid, sent := sendRes.2.2, pinned := []
        edited := bestEffort.2 }
    | none =>
      let t := msgs.headD ""
      let ch3 := setMsg sendRes.1 sendRes.2.1 t
      if tr.pinFail then
        { ledger := ledger, channel := ch3, nextMid := sendRes.2.1 + 1
          nextLid := nextLid, sent := [(sendRes.2.1, t)]
          pinned := [sendRes.2.1], edited := bestEffort.2 }
      else
        { ledger := save_pinned_message chat sendRes.2.1 pcount now nextLid ledger
          channel := ch3, nextMid := sendRes.2.1 + 1, nextLid := nextLid + 1
          sent := [(sendRes.2.1, t)], pinned := [sendRes.2.1]
          edited := bestEffort.2 }

/-- Lines 313–386 of `bot.py` (`update_pinned_directory` after the
chunks are built): with exactly one chunk and a current ledger entry,
attempt the in-place edit — on success or on the "message is not
modified" `BadRequest` return at once; on any other `BadRequest` log
and continue with the rest of the procedure. -/
def update_pinned_directory_core (msgs : List String) (chat : Int)
    (pcount : Nat) (now : String) (tr : Transport)
    (ledger : List PinnedEntry) (nextMid nextLid : Nat) : ReconcileResult :=
  let current := get_current_pinned chat ledger
  match current with
  | some cp =>
    if msgs.length = 1 then
      match edit_outcome tr cp.message_id (msgs.headD "") with
      | .success =>
        { ledger := ledger
          channel := setMsg tr.channel cp.message_id (msgs.headD "")
          nextMid := nextMid, nextLid := nextLid, sent := [], pinned := []
          edited := [(cp.message_id, msgs.headD "")] }
      | .notModified =>
        { ledger := ledger, channel := tr.channel, nextMid := nextMid
          nextLid := nextLid, sent := [], pinned := []
          edited := [(cp.message_id, msgs.headD "")] }
      | .otherError =>
        reconcile_rest msgs chat pcount now tr ledger nextMid nextLid
          [(cp.message_id, msgs.headD "")] current
    else
      reconcile_rest msgs chat pcount now tr ledger nextMid nextLid [] current
  | none =>
    reconcile_rest msgs chat pcount now tr ledger nextMid nextLid [] current

/-- Function `update_pinned_directory` from `bot.py`: build the chunks from the
profile list, then reconcile them against the channel and the ledger.
`date_str` and `now` are the two internal `datetime.now(...)` readings
(render timestamp and ledger row timestamp). -/
def update_pinned_directory (profiles : List Profile) (chat : Int)
    (date_str now : String) (tr : Transport) (ledger : List PinnedEntry)
    (nextMid nextLid : Nat) : ReconcileResult :=
  update_pinned_directory_core (build_directory_messages profiles chat date_str)
    chat profiles.length now tr ledger nextMid nextLid

/-- The owner-driven npub rebind of `handle_message` (lines 506–511 of
`bot.py`): `UPDATE profiles SET npub = ? WHERE telegram_user_id = ?`. -/
def rebind_npub (npub : String) (user_id : Int) (table : List Profile) :
    List Profile :=
  table.map fun p =>
    if p.telegram_user_id = user_id then { p with npub := npub } else p

/-- The ledger invariant of the spec: for each channel, at most one
row with `is_current = 1`. -/
def AtMostOneCurrent (l : List PinnedEntry) : Prop :=
  ∀ c : Int, (l.filter fun e => e.chat_id = c && e.is_current).length ≤ 1

end NostrBot

namespace NostrBot

theorem markNonCurrent_filter_eq_nil (chat : Int) (l : List PinnedEntry) :
    ((l.map fun e =>
        if e.chat_id = chat then { e with is_current := false } else e).filter
      fun e => e.chat_id = chat && e.is_current) = [] := by
  induction l with
  | nil => rfl
  | cons e es ih =>
    by_cases he : e.chat_id = chat
    · simp only [List.map_cons, if_pos he, List.filter_cons]
      simp [ih]
    · simp only [List.map_cons, if_neg he, List.filter_cons]
      simp [he, ih]

theorem markNonCurrent_filter_eq_self (chat c : Int) (hc : c ≠ chat)
    (l : List PinnedEntry) :
    ((l.map fun e =>
        if e.chat_id = chat then { e with is_current := false } else e).filter
      fun e => e.chat_id = c && e.is_current)
    = l.filter fun e => e.chat_id = c && e.is_current := by
  induction l with
  | nil => rfl
  | cons e es ih =>
    by_cases he : e.chat_id = chat
    · have hne : ¬ e.chat_id = c := by
        rw [he]; exact fun h => hc h.symm
      simp only [List.map_cons, if_pos he, List.filter_cons]
      simp [hne, ih]
    · simp only [List.map_cons, if_neg he, List.filter_cons, ih]

theorem filter_current_save (chat c : Int) (mid pcount : Nat) (now : String)
    (nid : Nat) (l : List PinnedEntry) :
    ((save_pinned_message chat mid pcount now nid l).filter
      fun e => e.chat_id = c && e.is_current)
    = if c = chat then [⟨nid, chat, mid, pcount, true, now⟩]
      else l.filter fun e => e.chat_id = c && e.is_current := by
  unfold save_pinned_message
  rw [List.filter_append]
  by_cases hc : c = chat
  · subst hc
    rw [markNonCurrent_filter_eq_nil c l, if_pos rfl]
    simp [List.filter]
  · rw [markNonCurrent_filter_eq_self chat c hc, if_neg hc]
    have : ¬ ((chat : Int) = c) := fun h => hc h.symm
    simp [List.filter, this]

theorem AtMostOneCurrent_save (chat : Int) (mid pcount : Nat) (now : String)
    (nid : Nat) (l : List PinnedEntry) (h : AtMostOneCurrent l) :
    AtMostOneCurrent (save_pinned_message chat mid pcount now nid l) := by
  intro c
  rw [filter_current_save]
  by_cases hc : c = chat
  · simp [hc]
  · rw [if_neg hc]
    exact h c

theorem reconcile_rest_ledger_cases (msgs : List String) (chat : Int)
    (pcount : Nat) (now : String) (tr : Transport) (ledger : List PinnedEntry)
    (nextMid nextLid : Nat) (edited0 : List (Nat × String))
    (current : Option PinnedEntry) :
    (reconcile_rest msgs chat pcount now tr ledger nextMid nextLid edited0
        current).ledger = ledger
    ∨ ∃ mid, (reconcile_rest msgs chat pcount now tr ledger nextMid nextLid
        edited0 current).ledger
        = save_pinned_message chat mid pcount now nextLid ledger := by
  unfold reconcile_rest
  dsimp only
  split
  · split
    · exact Or.inl rfl
    · exact Or.inr ⟨_, rfl⟩
  · split
    · exact Or.inl rfl
    · split
      · exact Or.inl rfl
      · exact Or.inr ⟨_, rfl⟩

theorem update_core_ledger_cases (msgs : List String) (chat : Int)
    (pcount : Nat) (now : String) (tr : Transport) (ledger : List PinnedEntry)
    (nextMid nextLid : Nat) :
    (update_pinned_directory_core msgs chat pcount now tr ledger nextMid
        nextLid).ledger = ledger
    ∨ ∃ mid, (update_pinned_directory_core msgs chat pcount now tr ledger
        nextMid nextLid).ledger
        = save_pinned_message chat mid pcount now nextLid ledger := by
  unfold update_pinned_directory_core
  dsimp only
  split
  · split
    · split
      · exact Or.inl rfl
      · exact Or.inl rfl
      · exact reconcile_rest_ledger_cases ..
    · exact reconcile_rest_ledger_cases ..
  · exact reconcile_rest_ledger_cases ..

theorem send_messages_sent_eq (ts : List String) (ch : Nat → Option String)
    (n : Nat) :
    (send_messages ts ch n).2.2 = (List.range' n ts.length).zip ts := by
  induction ts generalizing ch n with
  | nil => rfl
  | cons t ts ih =>
    simp [send_messages, List.range'_succ, ih]

theorem send_messages_getLast (ts : List String) (ch : Nat → Option String)
    (n : Nat) :
    (send_messages ts ch n).2.2.getLast?
      = ts.getLast?.map fun t => (n + ts.length - 1, t) := by
  induction ts generalizing ch n with
  | nil => rfl
  | cons t ts ih =>
    cases ts with
    | nil => simp [send_messages]
    | cons u us =>
      show ((n, t) :: (send_messages (u :: us) (setMsg ch n t) (n + 1)).2.2).getLast?
        = _
      have hc : (send_messages (u :: us) (setMsg ch n t) (n + 1)).2.2
          = (n + 1, u) :: (send_messages us (setMsg (setMsg ch n t) (n + 1) u)
              (n + 1 + 1)).2.2 := rfl
      rw [hc, List.getLast?_cons_cons, ← hc, ih]
      have harith : n + 1 + (u :: us).length - 1 = n + (t :: u :: us).length - 1 := by
        simp
        omega
      rw [List.getLast?_cons_cons, harith]

theorem get_current_save (chat : Int) (mid pcount : Nat) (now : String)
    (nid : Nat) (l : List PinnedEntry) :
    get_current_pinned chat (save_pinned_message chat mid pcount now nid l)
      = some ⟨nid, chat, mid, pcount, true, now⟩ := by
  unfold get_current_pinned save_pinned_message
  induction l with
  | nil => simp [List.find?]
  | cons e es ih =>
    by_cases he : e.chat_id = chat
    · simp only [List.map_cons, if_pos he, List.cons_append, List.find?_cons]
      simpa using ih
    · simp only [List.map_cons, if_neg he, List.cons_append, List.find?_cons]
      simp only [he, decide_False, Bool.false_and]
      exact ih

theorem build_step_abs (total : Nat) (date_str : String) (st : ChunksState)
    (idx : Nat) (p : Profile) :
    build_step total date_str (absState st) idx p
      = absState (chunks_step total date_str st idx p) := by
  unfold build_step chunks_step absState
  dsimp only
  split
  · simp [render_sealed]
  · rfl

theorem build_loop_abs (total : Nat) (date_str : String) (st : ChunksState)
    (idx : Nat) (ps : List Profile) :
    build_loop total date_str (absState st) idx ps
      = absState (chunks_loop total date_str st idx ps) := by
  induction ps generalizing st idx with
  | nil => rfl
  | cons p ps ih =>
    rw [build_loop, chunks_loop, build_step_abs, ih]

theorem chunks_step_lines (total : Nat) (date_str : String) (st : ChunksState)
    (idx : Nat) (p : Profile) :
    chunkLines (chunks_step total date_str st idx p)
      = chunkLines st ++ [format_profile_line idx p] := by
  unfold chunks_step chunkLines
  dsimp only
  split
  · simp
  · simp

theorem chunks_loop_lines (total : Nat) (date_str : String) (st : ChunksState)
    (idx : Nat) (ps : List Profile) :
    chunkLines (chunks_loop total date_str st idx ps)
      = chunkLines st ++ (ps.enumFrom idx).map fun ip =>
          format_profile_line ip.1 ip.2 := by
  induction ps generalizing st idx with
  | nil => simp [chunks_loop]
  | cons p ps ih =>
    rw [chunks_loop, ih, chunks_step_lines]
    simp

theorem footer_ge5 (c : Nat) (d : String) : 5 ≤ (footer_str c d).length := by
  unfold footer_str
  simp only [String.length_append]
  have h : (" perfiles | Actualizado: " : String).length = 25 := by decide
  omega

theorem joinLines_length_le :
    ∀ ls : List String,
      (joinLines ls).length ≤ (ls.map String.length).sum + ls.length
  | [] => by simp [joinLines]
  | [l] => by simp [joinLines]
  | l :: l' :: ls => by
    have ih := joinLines_length_le (l' :: ls)
    rw [show joinLines (l :: l' :: ls) = l ++ "\n" ++ joinLines (l' :: ls) from rfl]
    simp only [String.length_append, List.map_cons, List.sum_cons,
      List.length_cons] at ih ⊢
    have hn : ("\n" : String).length = 1 := by decide
    omega

theorem empty_directory_message_le (d : String) (hd : d.length = 16) :
    (empty_directory_message d).length ≤ MAX_MSG_LENGTH := by
  unfold empty_directory_message
  simp only [String.length_append]
  have h1 : ("🟣 <b>Directorio Nostr del grupo</b>\n\n" : String).length ≤ 200 := by
    decide
  have h2 : ("<i>Aún no hay perfiles registrados.</i>\n" : String).length ≤ 200 := by
    decide
  have h3 : ("Envía tu <code>npub1...</code> para aparecer aquí.\n\n" : String).length
      ≤ 200 := by decide
  have h4 : ("📊 0 perfiles | Actualizado: " : String).length ≤ 200 := by decide
  have h5 : (" UTC" : String).length ≤ 200 := by decide
  have hmax : MAX_MSG_LENGTH = 4000 := rfl
  omega

theorem build_step_good (total : Nat) (d : String) (st : BuildState)
    (idx : Nat) (p : Profile) (hG : GoodState total d st)
    (hf : LineFits total d idx p) :
    GoodState total d (build_step total d st idx p) := by
  obtain ⟨hmsgs, hhead, hlen, htrack⟩ := hG
  have hF5 : 5 ≤ (footer_str total d).length := footer_ge5 total d
  have hCN5 : 5 ≤ CHAIN_NOTE.length := by decide
  have h37 : HEADER.length = 37 := by decide
  have h42 : CONT_HEADER.length = 42 := by decide
  have hhl : st.header.length = 37 ∨ st.header.length = 42 := by
    rcases hhead with h | h
    · exact Or.inl (by rw [h, h37])
    · exact Or.inr (by rw [h, h42])
  unfold LineFits at hf
  unfold GoodState build_step
  dsimp only
  split
  case isTrue hcond =>
    dsimp only
    refine ⟨?_, Or.inr rfl, ?_, ?_⟩
    · intro m hm
      rcases List.mem_append.mp hm with hm | hm
      · exact hmsgs m hm
      · have hm' : m = st.header ++ joinLines st.current_lines ++ CHAIN_NOTE := by
          simpa using hm
        rw [hm']
        have hj := joinLines_length_le st.current_lines
        simp only [String.length_append]
        omega
    · rcases hhl with h | h <;> omega
    · simp only [List.map_cons, List.map_nil, List.sum_cons, List.sum_nil,
        List.length_cons, List.length_nil]
      rcases hhl with h | h <;> omega
  case isFalse hcond =>
    dsimp only
    refine ⟨hmsgs, hhead, ?_, ?_⟩
    · omega
    · simp only [List.map_append, List.sum_append, List.length_append,
        List.map_cons, List.map_nil, List.sum_cons, List.sum_nil,
        List.length_cons, List.length_nil]
      omega

theorem build_loop_good (total : Nat) (d : String) :
    ∀ (ps : List Profile) (st : BuildState) (idx : Nat),
      GoodState total d st →
      (∀ ip ∈ ps.enumFrom idx, LineFits total d ip.1 ip.2) →
      GoodState total d (build_loop total d st idx ps)
  | [], st, _, hG, _ => hG
  | p :: ps, st, idx, hG, hf => by
    rw [build_loop]
    exact build_loop_good total d ps _ (idx + 1)
      (build_step_good total d st idx p hG (hf (idx, p) (by simp)))
      (fun ip hip => hf ip (by simp [hip]))

theorem rebind_field_eq {α : Type} (f : Profile → α) (npub : String)
    (user_id : Int) (table : List Profile)
    (hf : ∀ p : Profile, f { p with npub := npub } = f p) :
    (rebind_npub npub user_id table).map f = table.map f := by
  induction table with
  | nil => rfl
  | cons p ps ih =>
    simp only [rebind_npub, List.map_cons] at ih ⊢
    refine congrArg₂ List.cons ?_ ih
    split
    · exact hf p
    · rfl

end NostrBot

section ClaimTheorems
open NostrBot

/-- Claim C9: An owner-driven token rebind (`UPDATE profiles SET npub = ?
WHERE telegram_user_id = ?` in `handle_message`) updates only the
`npub` field: the `custom_name`, `web_consent`, `added_at`,
`telegram_user_id`, `telegram_username` and `telegram_name` columns of
every row — in particular of every row with a `custom_name` set — are
unchanged. -/
theorem rebind_npub_preserves_custom_name (npub : String) (user_id : Int)
    (table : List Profile) :
    (rebind_npub npub user_id table).map Profile.custom_name
        = table.map Profile.custom_name
    ∧ (rebind_npub npub user_id table).map Profile.web_consent
        = table.map Profile.web_consent
    ∧ (rebind_npub npub user_id table).map Profile.added_at
        = table.map Profile.added_at
    ∧ (rebind_npub npub user_id table).map Profile.telegram_user_id
        = table.map Profile.telegram_user_id
    ∧ (rebind_npub npub user_id table).map Profile.telegram_username
        = table.map Profile.telegram_username
    ∧ (rebind_npub npub user_id table).map Profile.telegram_name
        = table.map Profile.telegram_name :=
  ⟨rebind_field_eq _ _ _ _ fun _ => rfl, rebind_field_eq _ _ _ _ fun _ => rfl,
   rebind_field_eq _ _ _ _ fun _ => rfl, rebind_field_eq _ _ _ _ fun _ => rfl,
   rebind_field_eq _ _ _ _ fun _ => rfl, rebind_field_eq _ _ _ _ fun _ => rfl⟩

/-- Counterexample to claim C8: A record whose `custom_name` is present but
empty does not render its `custom_name`: Python truthiness skips the
empty string and the handle is rendered instead, refuting the claim
that a record with `customName` present always renders `customName`. -/
theorem display_name_empty_custom_refutes_claim :
    (Profile.mk "npub1x" 1 (some "u") (some "Nm") "2024" false (some "")).custom_name
        = some ""
    ∧ get_display_name
        (Profile.mk "npub1x" 1 (some "u") (some "Nm") "2024" false (some ""))
        = "@u"
    ∧ get_display_name
        (Profile.mk "npub1x" 1 (some "u") (some "Nm") "2024" false (some ""))
        ≠ "" := by
  refine ⟨rfl, rfl, ?_⟩
  decide

/-- Claim C8 as amended: Display-name precedence `custom_name` >
`@telegram_username` > `telegram_name` > `"Anónimo"` as implemented by
`get_display_name`, where a field counts as present only when it is a
non-empty string (Python truthiness). -/
theorem get_display_name_precedence (p : Profile) :
    (∀ s, p.custom_name = some s → s ≠ "" → get_display_name p = s)
    ∧ (truthy p.custom_name = false →
        ∀ s, p.telegram_username = some s → s ≠ "" →
          get_display_name p = "@" ++ s)
    ∧ (truthy p.custom_name = false → truthy p.telegram_username = false →
        ∀ s, p.telegram_name = some s → s ≠ "" → get_display_name p = s)
    ∧ (truthy p.custom_name = false → truthy p.telegram_username = false →
        truthy p.telegram_name = false → get_display_name p = "Anónimo") := by
  refine ⟨?_, ?_, ?_, ?_⟩
  · intro s hs hne
    simp [get_display_name, truthy, hs, hne]
  · intro hc s hs hne
    simp [get_display_name, truthy, hc, hs, hne]
    simp [truthy] at hc
    simp [hc]
  · intro hc hu s hs hne
    simp [truthy] at hc hu
    simp [get_display_name, truthy, orDefault, hc, hu, hs, hne]
  · intro hc hu hn
    simp [truthy] at hc hu hn
    simp [get_display_name, truthy, orDefault, hc, hu, hn]

/-- Witness for claim C8: A record with a non-empty `custom_name` and a
handle renders the `custom_name`. -/
theorem get_display_name_precedence_witness :
    get_display_name (Profile.mk "n" 1 (some "u") (some "Nm") "d" true (some "Custom"))
      = "Custom" :=
  (get_display_name_precedence _).1 "Custom" rfl (by decide)

set_option maxRecDepth 4000 in
/-- Counterexample to claim C5: `build_directory_messages` reads the clock
internally (`datetime.now` inside the function): for the same
caller-supplied arguments (profile list and `chat_id`), two runs at
different internal clock readings return different chunk lists, so the
timestamp is not injected by the caller. -/
theorem build_directory_messages_reads_clock_internally :
    build_directory_messages [] 0 "01/01/2025 00:00"
      ≠ build_directory_messages [] 0 "02/01/2025 00:00" := by
  decide

/-- Claim C5 as amended: `build_directory_messages` is a deterministic
function of the profile list and the internally read timestamp, and is
independent of its `chat_id` argument: any two runs on identical
profile lists with identical internal clock readings return identical
chunk lists, whatever the chat ids. -/
theorem build_directory_messages_deterministic (profiles : List Profile)
    (date_str : String) (c₁ c₂ : Int) :
    build_directory_messages profiles c₁ date_str
      = build_directory_messages profiles c₂ date_str := rfl

/-- Claim C2: Idempotence of reconcile for a one-chunk directory: when
the single chunk equals the text currently stored in the pinned
message and no transport failure is injected, the edit reports
"message is not modified", which `update_pinned_directory` treats as a
successful no-op — zero messages are sent, zero pin attempts are made,
and the ledger is unchanged. -/
theorem reconcile_single_unchanged_is_noop
    (c : String) (chat : Int) (pcount : Nat) (now : String) (tr : Transport)
    (ledger : List PinnedEntry) (nextMid nextLid : Nat) (cp : PinnedEntry)
    (hcur : get_current_pinned chat ledger = some cp)
    (hch : tr.channel cp.message_id = some c)
    (hef : tr.editFail = false) :
    (update_pinned_directory_core [c] chat pcount now tr ledger nextMid nextLid).sent = []
    ∧ (update_pinned_directory_core [c] chat pcount now tr ledger nextMid nextLid).pinned = []
    ∧ (update_pinned_directory_core [c] chat pcount now tr ledger nextMid nextLid).ledger
        = ledger := by
  simp [update_pinned_directory_core, hcur, edit_outcome, hef, hch]

/-- Witness for claim C2: A concrete ledger, channel and chunk exercising the
unchanged-content no-op. -/
theorem reconcile_single_unchanged_is_noop_witness :
    (update_pinned_directory_core ["hello"] 5 0 "n"
        (Transport.mk (fun m => if m = 100 then some "hello" else none) false false)
        [PinnedEntry.mk 1 5 100 0 true "t"] 200 2).sent = []
    ∧ (update_pinned_directory_core ["hello"] 5 0 "n"
        (Transport.mk (fun m => if m = 100 then some "hello" else none) false false)
        [PinnedEntry.mk 1 5 100 0 true "t"] 200 2).pinned = []
    ∧ (update_pinned_directory_core ["hello"] 5 0 "n"
        (Transport.mk (fun m => if m = 100 then some "hello" else none) false false)
        [PinnedEntry.mk 1 5 100 0 true "t"] 200 2).ledger
        = [PinnedEntry.mk 1 5 100 0 true "t"] :=
  reconcile_single_unchanged_is_noop "hello" 5 0 "n" _ _ 200 2
    (PinnedEntry.mk 1 5 100 0 true "t") (by decide) (by decide) rfl

/-- Claim C10: On the one-chunk edit-in-place path (a current ledger
entry exists and the edit either succeeds or reports "message is not
modified"), `update_pinned_directory` performs no ledger write: the
ledger — in particular the `message_id` and stored `profile_count`
snapshot of the current entry — is exactly as before the call, whatever
`pcount` the current render produced, and nothing is sent or pinned. -/
theorem reconcile_single_edit_in_place_no_ledger_write
    (c : String) (chat : Int) (pcount : Nat) (now : String) (tr : Transport)
    (ledger : List PinnedEntry) (nextMid nextLid : Nat) (cp : PinnedEntry)
    (t : String)
    (hcur : get_current_pinned chat ledger = some cp)
    (hch : tr.channel cp.message_id = some t)
    (hef : tr.editFail = false) :
    (update_pinned_directory_core [c] chat pcount now tr ledger nextMid nextLid).ledger
        = ledger
    ∧ get_current_pinned chat
        (update_pinned_directory_core [c] chat pcount now tr ledger nextMid nextLid).ledger
        = some cp
    ∧ (update_pinned_directory_core [c] chat pcount now tr ledger nextMid nextLid).sent = []
    ∧ (update_pinned_directory_core [c] chat pcount now tr ledger nextMid nextLid).pinned
        = [] := by
  by_cases ht : t = c
  · subst ht
    simp [update_pinned_directory_core, hcur, edit_outcome, hef, hch]
  · simp [update_pinned_directory_core, hcur, edit_outcome, hef, hch, ht]

/-- Witness for claim C10: A concrete successful in-place edit (stored text
differs from the chunk) leaving the ledger untouched even though the
rendered profile count (7) differs from the stored snapshot (3). -/
theorem reconcile_single_edit_in_place_no_ledger_write_witness :
    (update_pinned_directory_core ["new text"] 5 7 "n"
        (Transport.mk (fun m => if m = 100 then some "old text" else none) false false)
        [PinnedEntry.mk 1 5 100 3 true "t"] 200 2).ledger
        = [PinnedEntry.mk 1 5 100 3 true "t"]
    ∧ get_current_pinned 5
        (update_pinned_directory_core ["new text"] 5 7 "n"
          (Transport.mk (fun m => if m = 100 then some "old text" else none) false false)
          [PinnedEntry.mk 1 5 100 3 true "t"] 200 2).ledger
        = some (PinnedEntry.mk 1 5 100 3 true "t")
    ∧ (update_pinned_directory_core ["new text"] 5 7 "n"
        (Transport.mk (fun m => if m = 100 then some "old text" else none) false false)
        [PinnedEntry.mk 1 5 100 3 true "t"] 200 2).sent = []
    ∧ (update_pinned_directory_core ["new text"] 5 7 "n"
        (Transport.mk (fun m => if m = 100 then some "old text" else none) false false)
        [PinnedEntry.mk 1 5 100 3 true "t"] 200 2).pinned = [] :=
  reconcile_single_edit_in_place_no_ledger_write "new text" 5 7 "n" _ _ 200 2
    (PinnedEntry.mk 1 5 100 3 true "t") "old text" (by decide) (by decide) rfl

/-- Claim C3, code behaviour at the failing input: With one chunk, a
current ledger entry, and an edit that fails for a transport reason
other than "message is not modified" (here: the message is gone from
the channel), `update_pinned_directory` does *not* fall through to the
no-current-entry path: the edit is attempted, and then nothing is sent,
nothing is pinned and the ledger is unchanged — the send loop skips
chunk 0 because a current entry exists, and the fallback branch is
guarded by the absence of a current entry.  This contradicts both the
spec ("send fresh, pin, record") and the log message of the code
itself, "Creando nuevo.", on this path. -/
theorem reconcile_single_edit_failure_sends_nothing :
    (update_pinned_directory_core ["fresh"] 5 4 "t1"
        (Transport.mk (fun _ => none) false false)
        [PinnedEntry.mk 1 5 100 3 true "t0"] 200 2).edited = [(100, "fresh")]
    ∧ (update_pinned_directory_core ["fresh"] 5 4 "t1"
        (Transport.mk (fun _ => none) false false)
        [PinnedEntry.mk 1 5 100 3 true "t0"] 200 2).sent = []
    ∧ (update_pinned_directory_core ["fresh"] 5 4 "t1"
        (Transport.mk (fun _ => none) false false)
        [PinnedEntry.mk 1 5 100 3 true "t0"] 200 2).pinned = []
    ∧ (update_pinned_directory_core ["fresh"] 5 4 "t1"
        (Transport.mk (fun _ => none) false false)
        [PinnedEntry.mk 1 5 100 3 true "t0"] 200 2).ledger
        = [PinnedEntry.mk 1 5 100 3 true "t0"] := by
  refine ⟨?_, ?_, ?_, ?_⟩ <;> decide

/-- Claim C7: The pinned-message ledger invariant: `save_pinned_message`
(the only ledger-writing operation; the reconciler writes the ledger
only through it, as the last conjunct states for every reconcile call)
preserves "at most one `is_current` row per channel"; it never deletes
a row — the new ledger is one row longer, its leading rows are the old rows
with `is_current` flipped to `0` exactly on the written channel, and
every old row survives with all fields intact except possibly the
`is_current` flag. -/
theorem save_pinned_message_ledger_invariant (chat : Int)
    (mid pcount : Nat) (now : String) (nid : Nat) (l : List PinnedEntry)
    (h : AtMostOneCurrent l) :
    AtMostOneCurrent (save_pinned_message chat mid pcount now nid l)
    ∧ (save_pinned_message chat mid pcount now nid l).length = l.length + 1
    ∧ (save_pinned_message chat mid pcount now nid l).take l.length
        = l.map (fun e =>
            if e.chat_id = chat then { e with is_current := false } else e)
    ∧ (∀ e ∈ l, ∃ e' ∈ save_pinned_message chat mid pcount now nid l,
        e'.id = e.id ∧ e'.chat_id = e.chat_id ∧ e'.message_id = e.message_id
        ∧ e'.profile_count = e.profile_count ∧ e'.created_at = e.created_at
        ∧ (e'.is_current = e.is_current ∨ e'.is_current = false))
    ∧ ∀ (msgs : List String) (pc : Nat) (now2 : String) (tr : Transport)
        (nextMid nextLid : Nat),
        AtMostOneCurrent
          (update_pinned_directory_core msgs chat pc now2 tr l nextMid
            nextLid).ledger := by
  refine ⟨AtMostOneCurrent_save chat mid pcount now nid l h, ?_, ?_, ?_, ?_⟩
  · simp [save_pinned_message]
  · simp [save_pinned_message]
  · intro e he
    refine ⟨if e.chat_id = chat then { e with is_current := false } else e,
      List.mem_append_left _ (List.mem_map_of_mem _ he), ?_⟩
    split <;> simp
  · intro msgs pc now2 tr nextMid nextLid
    rcases update_core_ledger_cases msgs chat pc now2 tr l nextMid nextLid with
      hcase | ⟨m, hcase⟩
    · rw [hcase]; exact h
    · rw [hcase]; exact AtMostOneCurrent_save chat m pc now2 nextLid l h

/-- Witness for claim C7: The invariant theorem applied to a concrete
one-row ledger. -/
theorem save_pinned_message_ledger_invariant_witness :
    AtMostOneCurrent
      (save_pinned_message 5 200 7 "t1" 2 [PinnedEntry.mk 1 5 100 3 true "t0"])
    ∧ (save_pinned_message 5 200 7 "t1" 2
        [PinnedEntry.mk 1 5 100 3 true "t0"]).length = 2 :=
  have h : AtMostOneCurrent [PinnedEntry.mk 1 5 100 3 true "t0"] :=
    fun _ => le_trans (List.length_filter_le _ _) (by simp)
  ⟨(save_pinned_message_ledger_invariant 5 200 7 "t1" 2 _ h).1,
   (save_pinned_message_ledger_invariant 5 200 7 "t1" 2 _ h).2.1⟩

/-- Claim C4: With more than one chunk and a current ledger entry (and a
pin call that does not fail), `update_pinned_directory`: attempts a
best-effort edit of the current message to chunk 0 whatever the
outcome of that edit; sends exactly chunks 1..N-1 as new messages with
consecutive fresh ids in input order; pins the last sent message; and
writes the ledger so that its new current entry references that last
sent message while the old rows are kept with `is_current` cleared for
this chat — under the at-most-one-current invariant, the previously
current entry is exactly the one row flipped non-current. -/
theorem reconcile_multi_chunk_pins_last (msgs : List String) (chat : Int)
    (pcount : Nat) (now : String) (tr : Transport) (ledger : List PinnedEntry)
    (nextMid nextLid : Nat) (cp : PinnedEntry)
    (hlen : 2 ≤ msgs.length)
    (hcur : get_current_pinned chat ledger = some cp)
    (hpin : tr.pinFail = false)
    (hinv : AtMostOneCurrent ledger) :
    (update_pinned_directory_core msgs chat pcount now tr ledger nextMid
        nextLid).edited = [(cp.message_id, msgs.headD "")]
    ∧ (update_pinned_directory_core msgs chat pcount now tr ledger nextMid
        nextLid).sent.map Prod.snd = msgs.drop 1
    ∧ (update_pinned_directory_core msgs chat pcount now tr ledger nextMid
        nextLid).sent.map Prod.fst = List.range' nextMid (msgs.length - 1)
    ∧ (update_pinned_directory_core msgs chat pcount now tr ledger nextMid
        nextLid).pinned = [nextMid + msgs.length - 2]
    ∧ (update_pinned_directory_core msgs chat pcount now tr ledger nextMid
        nextLid).ledger
        = save_pinned_message chat (nextMid + msgs.length - 2) pcount now
            nextLid ledger
    ∧ get_current_pinned chat
        (update_pinned_directory_core msgs chat pcount now tr ledger nextMid
          nextLid).ledger
        = some ⟨nextLid, chat, nextMid + msgs.length - 2, pcount, true, now⟩
    ∧ (ledger.filter fun e => e.chat_id = chat && e.is_current).length = 1
    ∧ (update_pinned_directory_core msgs chat pcount now tr ledger nextMid
        nextLid).ledger.take ledger.length
        = ledger.map (fun e =>
            if e.chat_id = chat then { e with is_current := false } else e) := by
  have h1 : ¬ msgs.length = 1 := by omega
  have hdropne : msgs.drop 1 ≠ [] := by
    intro h0
    have := congrArg List.length h0
    simp at this
    omega
  obtain ⟨tlast, htlast⟩ : ∃ t, (msgs.drop 1).getLast? = some t := by
    cases hgl : (msgs.drop 1).getLast? with
    | none => exact absurd (List.getLast?_eq_none_iff.mp hgl) hdropne
    | some t => exact ⟨t, rfl⟩
  have hlast :
      (send_messages (msgs.drop 1)
        (edit_apply tr cp.message_id (msgs.headD "")) nextMid).2.2.getLast?
      = some (nextMid + msgs.length - 2, tlast) := by
    rw [send_messages_getLast, htlast, Option.map_some']
    have : nextMid + (msgs.drop 1).length - 1 = nextMid + msgs.length - 2 := by
      simp
      omega
    rw [this]
  have hcur' : ledger.find? (fun e => e.chat_id = chat && e.is_current) = some cp :=
    hcur
  have hcount : (ledger.filter fun e => e.chat_id = chat && e.is_current).length
      = 1 := by
    have hmeml : cp ∈ ledger := List.mem_of_find?_eq_some hcur'
    have hpred :=
      @List.find?_some PinnedEntry (fun e => e.chat_id = chat && e.is_current)
        cp ledger hcur'
    have hmem : cp ∈ ledger.filter fun e => e.chat_id = chat && e.is_current :=
      List.mem_filter.mpr ⟨hmeml, hpred⟩
    have hpos : 0 < (ledger.filter fun e => e.chat_id = chat && e.is_current).length :=
      List.length_pos.mpr fun hnil => by simp [hnil] at hmem
    have := hinv chat
    omega
  unfold update_pinned_directory_core
  try dsimp only
  rw [hcur]
  try dsimp only
  rw [if_neg h1]
  unfold reconcile_rest
  try dsimp only
  rw [if_pos (by omega : msgs.length > 1)]
  try dsimp only
  rw [hlast]
  try dsimp only
  rw [hpin, if_neg (show ¬ (false = true) from by decide)]
  try dsimp only
  refine ⟨rfl, ?_, ?_, rfl, rfl, ?_, hcount, ?_⟩
  · rw [send_messages_sent_eq]
    exact List.map_snd_zip _ _ (by simp [List.length_range', List.length_drop])
  · rw [send_messages_sent_eq, List.length_drop]
    exact List.map_fst_zip _ _ (by simp [List.length_range', List.length_drop])
  · exact get_current_save ..
  · rw [save_pinned_message]
    have hlenmap : (ledger.map fun e =>
        if e.chat_id = chat then { e with is_current := false } else e).length
        = ledger.length := by simp
    rw [← hlenmap, List.take_left]

/-- Witness for claim C4: A concrete two-chunk reconcile against a one-row
ledger: the second chunk is sent as message 200 and pinned, and the
new current ledger row references it. -/
theorem reconcile_multi_chunk_pins_last_witness :
    (update_pinned_directory_core ["c0", "c1"] 5 9 "t1"
        (Transport.mk (fun m => if m = 100 then some "old" else none) false false)
        [PinnedEntry.mk 1 5 100 3 true "t0"] 200 2).pinned = [200]
    ∧ get_current_pinned 5
        (update_pinned_directory_core ["c0", "c1"] 5 9 "t1"
          (Transport.mk (fun m => if m = 100 then some "old" else none) false false)
          [PinnedEntry.mk 1 5 100 3 true "t0"] 200 2).ledger
        = some (PinnedEntry.mk 2 5 200 9 true "t1") :=
  have h := reconcile_multi_chunk_pins_last ["c0", "c1"] 5 9 "t1"
    (Transport.mk (fun m => if m = 100 then some "old" else none) false false)
    [PinnedEntry.mk 1 5 100 3 true "t0"] 200 2 (PinnedEntry.mk 1 5 100 3 true "t0")
    (by decide) (by decide) rfl
    (fun _ => le_trans (List.length_filter_le _ _) (by simp))
  ⟨h.2.2.2.1, h.2.2.2.2.2.1⟩

/-- Claim C6: For every non-empty profile list, the rendered chunks are
exactly structured chunks (header, numbered lines, ending) flattened —
so stripping headers and the continuation/footer endings leaves
precisely the numbered-line blocks of the chunks — and concatenating
the numbered lines of all chunks, in order, gives `numbered_lines profiles`:
one `format_profile_line` line per profile, numbered consecutively
from 1 over the entire list by `enumerate(profiles, 1)` (never reset at
chunk boundaries), reproducing the input profiles in input order,
each exactly once. -/
theorem chunk_lines_reconstruct_input (profiles : List Profile)
    (chat_id : Int) (date_str : String) (hne : profiles ≠ []) :
    build_directory_messages profiles chat_id date_str
      = (directory_chunks profiles date_str).sealed.map render_sealed
        ++ [(directory_chunks profiles date_str).header
            ++ joinLines (directory_chunks profiles date_str).current_lines
            ++ footer_str profiles.length date_str]
    ∧ chunkLines (directory_chunks profiles date_str)
        = numbered_lines profiles := by
  constructor
  · unfold build_directory_messages
    rw [if_neg (by simp [List.isEmpty_iff, hne])]
    have h0 : (⟨[], [], HEADER.length, HEADER⟩ : BuildState)
        = absState ⟨[], [], HEADER.length, HEADER⟩ := rfl
    rw [h0, build_loop_abs]
    rfl
  · unfold directory_chunks
    rw [chunks_loop_lines]
    simp [chunkLines, numbered_lines]

/-- Witness for claim C6: The reconstruction theorem applied to a concrete
one-profile list. -/
theorem chunk_lines_reconstruct_input_witness :
    chunkLines (directory_chunks
        [Profile.mk "npub1q" 7 (some "alice") (some "Alice") "2024" true none]
        "01/01/2025 00:00")
      = numbered_lines
        [Profile.mk "npub1q" 7 (some "alice") (some "Alice") "2024" true none] :=
  (chunk_lines_reconstruct_input
    [Profile.mk "npub1q" 7 (some "alice") (some "Alice") "2024" true none]
    0 "01/01/2025 00:00" (List.cons_ne_nil _ _)).2

/-- Claim C1 as amended: Every chunk returned by
`build_directory_messages` has length at most `MAX_MSG_LENGTH`,
provided the timestamp has its `strftime("%d/%m/%Y %H:%M")` length of
16 and every numbered profile line fits in a chunk by itself
(`LineFits`: continuation header + line + newline + final footer +
continuation marker within the bound).  The packing check before each
line reserves the final footer *plus* the continuation marker — at
least the larger of the two possible chunk endings — so sealed and
final chunks alike stay within the bound; the `LineFits` hypothesis is
needed because a line is appended unchecked to a freshly started chunk
after a seal. -/
theorem build_directory_messages_length_le (profiles : List Profile)
    (chat_id : Int) (date_str : String) (hd : date_str.length = 16)
    (hfit : ∀ ip ∈ profiles.enumFrom 1,
      LineFits profiles.length date_str ip.1 ip.2) :
    ∀ m ∈ build_directory_messages profiles chat_id date_str,
      m.length ≤ MAX_MSG_LENGTH := by
  intro m hm
  unfold build_directory_messages at hm
  by_cases hemp : profiles.isEmpty
  · rw [if_pos hemp] at hm
    have hm' : m = empty_directory_message date_str := by simpa using hm
    rw [hm']
    exact empty_directory_message_le _ hd
  · rw [if_neg hemp] at hm
    dsimp only at hm
    obtain ⟨q, qs, rfl⟩ : ∃ q qs, profiles = q :: qs := by
      cases profiles with
      | nil => simp at hemp
      | cons q qs => exact ⟨q, qs, rfl⟩
    have hfit1 := hfit (1, q) (by simp)
    have h37 : HEADER.length = 37 := by decide
    have hG0 : GoodState (q :: qs).length date_str
        ⟨[], [], HEADER.length, HEADER⟩ := by
      refine ⟨by simp, Or.inl rfl, ?_, ?_⟩
      · unfold LineFits at hfit1
        have h42 : CONT_HEADER.length = 42 := by decide
        dsimp only
        omega
      · dsimp only
        simp
    have hGf := build_loop_good (q :: qs).length date_str (q :: qs)
      ⟨[], [], HEADER.length, HEADER⟩ 1 hG0 hfit
    obtain ⟨hmsgs, hhead, hlen, htrack⟩ := hGf
    rcases List.mem_append.mp hm with hm2 | hm2
    · exact hmsgs m hm2
    · have hm' : m = (build_loop (q :: qs).length date_str
          ⟨[], [], HEADER.length, HEADER⟩ 1 (q :: qs)).header
          ++ joinLines (build_loop (q :: qs).length date_str
              ⟨[], [], HEADER.length, HEADER⟩ 1 (q :: qs)).current_lines
          ++ footer_str (q :: qs).length date_str := by simpa using hm2
      rw [hm']
      have hj := joinLines_length_le (build_loop (q :: qs).length date_str
        ⟨[], [], HEADER.length, HEADER⟩ 1 (q :: qs)).current_lines
      have hCN5 : 5 ≤ CHAIN_NOTE.length := by decide
      simp only [String.length_append]
      omega

set_option maxRecDepth 20000 in
/-- Witness for claim C1: The bound theorem applied to a concrete
two-profile list with realistic field sizes, at the first produced
chunk. -/
theorem build_directory_messages_length_le_witness :
    ((build_directory_messages
        [Profile.mk "npub1qqqqqqqqqqqqqqqqqqqqqqqqqqqqqqqqqqqqqqqqqqqqqqqqqqqqqqqqqq"
            7 (some "alice") (some "Alice") "2024" true none,
         Profile.mk "npub1wwwwwwwwwwwwwwwwwwwwwwwwwwwwwwwwwwwwwwwwwwwwwwwwwwwwwwwwww"
            8 none (some "Bob") "2024" false (some "Roberto")]
        0 "01/01/2025 00:00").getD 0 "").length ≤ MAX_MSG_LENGTH :=
  build_directory_messages_length_le
    [Profile.mk "npub1qqqqqqqqqqqqqqqqqqqqqqqqqqqqqqqqqqqqqqqqqqqqqqqqqqqqqqqqqq"
        7 (some "alice") (some "Alice") "2024" true none,
     Profile.mk "npub1wwwwwwwwwwwwwwwwwwwwwwwwwwwwwwwwwwwwwwwwwwwwwwwwwwwwwwwwww"
        8 none (some "Bob") "2024" false (some "Roberto")]
    0 "01/01/2025 00:00" rfl (by decide) _ (by decide)

set_option maxRecDepth 20000 in
/-- Counterexample to claim C1: The claim as stated fails: a single profile
whose `custom_name` has 4000 characters produces a numbered line longer
than `MAX_MSG_LENGTH`; the packing check only guards *adding* a line to
the current chunk, so the line starts a fresh chunk unchecked and the
final chunk (index 1 of the output) exceeds the bound. -/
theorem oversize_line_chunk_exceeds_bound :
    MAX_MSG_LENGTH <
      ((build_directory_messages
          [Profile.mk
              "npub1qqqqqqqqqqqqqqqqqqqqqqqqqqqqqqqqqqqqqqqqqqqqqqqqqqqqqqqqqq"
              7 none none "2024" false
              (some (String.mk (List.replicate 4000 'a')))]
          0 "01/01/2025 00:00").getD 1 "").length := by
  set pBig : Profile :=
    Profile.mk "npub1qqqqqqqqqqqqqqqqqqqqqqqqqqqqqqqqqqqqqqqqqqqqqqqqqqqqqqqqqq"
      7 none none "2024" false (some (String.mk (List.replicate 4000 'a')))
    with hp
  have hbig : (String.mk (List.replicate 4000 'a')).length = 4000 := by
    rw [show (String.mk (List.replicate 4000 'a')).length
        = (List.replicate 4000 'a').length from rfl, List.length_replicate]
  have htr : truthy (some (String.mk (List.replicate 4000 'a'))) = true := by
    simp only [truthy, ne_eq, decide_not]
    suffices h : ¬ String.mk (List.replicate 4000 'a') = "" by simp [h]
    intro h
    have hlen := congrArg String.length h
    rw [hbig] at hlen
    simp at hlen
  have hdisp : get_display_name pBig = String.mk (List.replicate 4000 'a') := by
    rw [hp]
    unfold get_display_name
    rw [htr]
    rfl
  have hL : (format_profile_line 1 pBig).length = 4120 := by
    unfold format_profile_line
    dsimp only
    rw [hdisp]
    simp only [String.length_append, hbig]
    decide
  have hcond : HEADER.length + ((format_profile_line 1 pBig).length + 1)
      + (footer_str 1 "01/01/2025 00:00").length + CHAIN_NOTE.length
      > MAX_MSG_LENGTH := by
    rw [hL]
    decide
  have hout : build_directory_messages [pBig] 0 "01/01/2025 00:00"
      = [HEADER ++ joinLines [] ++ CHAIN_NOTE,
         CONT_HEADER ++ joinLines [format_profile_line 1 pBig]
           ++ footer_str 1 "01/01/2025 00:00"] := by
    unfold build_directory_messages
    rw [if_neg (by simp)]
    dsimp only [List.length_cons, List.length_nil]
    rw [show build_loop 1 "01/01/2025 00:00" ⟨[], [], HEADER.length, HEADER⟩ 1
        [pBig] = build_step 1 "01/01/2025 00:00" ⟨[], [], HEADER.length, HEADER⟩
        1 pBig from rfl]
    unfold build_step
    dsimp only
    rw [if_pos hcond]
    dsimp only
    simp
  rw [hout]
  have hgd : ([HEADER ++ joinLines [] ++ CHAIN_NOTE,
      CONT_HEADER ++ joinLines [format_profile_line 1 pBig]
        ++ footer_str 1 "01/01/2025 00:00"].getD 1 "")
      = CONT_HEADER ++ joinLines [format_profile_line 1 pBig]
        ++ footer_str 1 "01/01/2025 00:00" := rfl
  rw [hgd, show joinLines [format_profile_line 1 pBig]
    = format_profile_line 1 pBig from rfl]
  simp only [String.length_append, hL]
  decide

end ClaimTheorems
